import Mathlib

/-!
# Verification of the rpysight streaming photon-to-voxel pipeline

Shallow embedding of `src/point_cloud_renderer.rs` and `src/event_stream.rs`
(repository HagaiHargil/rpysight).  Pure Rust functions become Lean
functions; the mutation of `AppState` becomes explicit state passing; the
Arrow IPC stream source becomes a finite list of stream items.

The repository's `configuration.rs`, `snakes.rs` and `serialize_and_render.rs`
are not part of the provided sources, so the channel map (`Inputs`), the
trajectory snake and the frame buffers are modelled from the specification,
each at the granularity the claims need.
-/

/-- `Picosecond` (src/snakes.rs re-export): signed 64-bit picosecond count.
Modelled as an unbounded integer; no claim depends on i64 overflow. -/
abbrev Picosecond := Int

/-- A single tag/event from the Time Tagger (src/event_stream.rs, `Event`).
`type_ = 0` marks a valid time tag; `u8`/`u16` fields are modelled as `Nat`
and the signed `channel` as `Int` (no claim involves wrap-around). -/
structure Event where
  type_ : Nat
  missed_event : Nat
  channel : Int
  time : Picosecond
deriving DecidableEq

/-- Modelled from the spec: `DataType` (configuration.rs) is the tagged
variant assigned to each input channel. -/
inductive DataType where
  | Pmt1
  | Pmt2
  | Pmt3
  | Pmt4
  | Line
  | Frame
  | TagLens
  | Laser
  | Invalid
deriving DecidableEq

/-- Modelled from the spec: `ImageCoor` is a triple of floats in `[0, 1]`.
No claim computes with coordinates, so each component is modelled as a
rational; coordinates only flow through the pipeline opaquely. -/
structure ImageCoor where
  x : ℚ
  y : ℚ
  z : ℚ
deriving DecidableEq

/-- The result of handling one event (src/point_cloud_renderer.rs,
`ProcessedEvent`). -/
inductive ProcessedEvent where
  | Displayed : ImageCoor → Nat → ProcessedEvent
  | NoOp
  | FrameNewFrame
  | LineNewFrame
  | PhotonNewFrame
  | Error
deriving DecidableEq

/-- Modelled from the spec: the capability set of the snake variants
(snakes.rs is not among the provided sources).  `σ` is the snake's mutable
state (frame origin, TAG phase); `time_to_coord_linear` is a pure lookup,
the other operations update the state. -/
structure SnakeOps (σ : Type) where
  time_to_coord_linear : σ → Picosecond → Nat → ProcessedEvent
  update_snake_for_next_frame : σ → Picosecond → σ
  new_taglens_period : σ → Picosecond → σ × ProcessedEvent
  new_laser_event : σ → Picosecond → σ × ProcessedEvent

/-- The immutable part of `AppState`: the channel map (`Inputs` is modelled
from the spec as a total mapping from signed channel to `DataType`,
configuration.rs being absent from the sources) and the snake operations. -/
structure Ctx (σ : Type) where
  inputs : Int → DataType
  ops : SnakeOps σ

/-- The mutable fields of `AppState` (src/point_cloud_renderer.rs) that the
claims concern.  `frame_buffers` is modelled from the spec as the sequence
of `add_to_render_queue(point, channel)` insertions, which is all the claims
observe of `FrameBuffers` (serialize_and_render.rs is absent from the
sources).  `batch_readout_count` is omitted: it feeds log messages only. -/
structure AppState (σ : Type) where
  snake : σ
  rows_per_frame : Nat
  line_count : Nat
  lines_vec : List Picosecond
  frame_buffers : List (ImageCoor × Nat)
deriving DecidableEq

/-- `AppState::handle_line_event` (src/point_cloud_renderer.rs:266-279). -/
def handle_line_event {σ : Type} (c : Ctx σ) (s : AppState σ) (time : Picosecond) :
    AppState σ × ProcessedEvent :=
  if s.line_count = s.rows_per_frame then
    ({ s with line_count := 0, lines_vec := [],
              snake := c.ops.update_snake_for_next_frame s.snake time },
     ProcessedEvent.LineNewFrame)
  else
    ({ s with line_count := s.line_count + 1, lines_vec := s.lines_vec ++ [time] },
     ProcessedEvent.NoOp)

/-- `AppState::handle_frame_event` (src/point_cloud_renderer.rs:282-288). -/
def handle_frame_event {σ : Type} (c : Ctx σ) (s : AppState σ) (time : Picosecond) :
    AppState σ × ProcessedEvent :=
  ({ s with line_count := 0, lines_vec := [],
            snake := c.ops.update_snake_for_next_frame s.snake time },
   ProcessedEvent.FrameNewFrame)

/-- `AppState::event_to_coordinate` (src/point_cloud_renderer.rs:651-671). -/
def event_to_coordinate {σ : Type} (c : Ctx σ) (s : AppState σ) (event : Event) :
    AppState σ × ProcessedEvent :=
  if event.type_ ≠ 0 then (s, ProcessedEvent.NoOp)
  else
    match c.inputs event.channel with
    | DataType.Pmt1 => (s, c.ops.time_to_coord_linear s.snake event.time 0)
    | DataType.Pmt2 => (s, c.ops.time_to_coord_linear s.snake event.time 1)
    | DataType.Pmt3 => (s, c.ops.time_to_coord_linear s.snake event.time 2)
    | DataType.Pmt4 => (s, c.ops.time_to_coord_linear s.snake event.time 3)
    | DataType.Line => handle_line_event c s event.time
    | DataType.TagLens =>
        let r := c.ops.new_taglens_period s.snake event.time
        ({ s with snake := r.1 }, r.2)
    | DataType.Laser =>
        let r := c.ops.new_laser_event s.snake event.time
        ({ s with snake := r.1 }, r.2)
    | DataType.Frame => handle_frame_event c s event.time
    | DataType.Invalid => (s, ProcessedEvent.NoOp)

/-- `AppState::act_on_single_event` (src/point_cloud_renderer.rs:397-424):
dispatch one event, accumulate `Displayed` outcomes into the frame buffers,
and report the frame-boundary signals that halt `find_map`. -/
def act_on_single_event {σ : Type} (c : Ctx σ) (s : AppState σ) (event : Event) :
    AppState σ × Option ProcessedEvent :=
  match event_to_coordinate c s event with
  | (s', ProcessedEvent.Displayed point channel) =>
      ({ s' with frame_buffers := s'.frame_buffers ++ [(point, channel)] }, none)
  | (s', ProcessedEvent.NoOp) => (s', none)
  | (s', ProcessedEvent.FrameNewFrame) => (s', some ProcessedEvent.FrameNewFrame)
  | (s', ProcessedEvent.PhotonNewFrame) => (s', some ProcessedEvent.PhotonNewFrame)
  | (s', ProcessedEvent.LineNewFrame) => (s', some ProcessedEvent.LineNewFrame)
  | (s', ProcessedEvent.Error) => (s', none)

/-- `EventStream` (src/event_stream.rs:154-159): a structure of four parallel
column arrays.  The proof fields record the documented invariant that the
column lengths agree (`EventBatch` invariant in the spec); every index
computed against `num_rows` is then in bounds for all four columns, which is
what makes the Rust indexing `column[(idx, 0)]` panic-free. -/
structure EventStream where
  type_ : List Nat
  missed_events : List Nat
  channel : List Int
  time : List Picosecond
  h_me : missed_events.length = type_.length
  h_ch : channel.length = type_.length
  h_t : time.length = type_.length

/-- `EventStream::num_rows` (src/event_stream.rs:204-206). -/
def EventStream.num_rows (s : EventStream) : Nat := s.type_.length

/-- Row `i` of the stream, assembled from the four columns exactly as
`RefEventStreamIter::next` / `EventStreamIter::next` do
(src/event_stream.rs:104-117, 131-144). -/
def EventStream.get (s : EventStream) (i : Fin s.num_rows) : Event :=
  { type_ := s.type_.get i
    missed_event := s.missed_events.get ⟨i.val, by rw [s.h_me]; exact i.isLt⟩
    channel := s.channel.get ⟨i.val, by rw [s.h_ch]; exact i.isLt⟩
    time := s.time.get ⟨i.val, by rw [s.h_t]; exact i.isLt⟩ }

/-- The event sequence produced by iterating the stream from the start, in
row order. -/
def EventStream.toList (s : EventStream) : List Event :=
  List.ofFn s.get

/-- `Event::from_stream_idx` (src/event_stream.rs:74-90). -/
def Event.from_stream_idx (stream : EventStream) (idx : Nat) : Option Event :=
  if h : stream.num_rows > idx then some (stream.get ⟨idx, h⟩) else none

/-- `EventStreamIter` (src/event_stream.rs:122-126), the consuming iterator:
a stream plus a cursor.  `h_len` records that `into_iter`
(src/event_stream.rs:213-219) sets `len` to the stream's row count. -/
structure EventStreamIter where
  stream : EventStream
  idx : Nat
  len : Nat
  h_len : len = stream.num_rows

/-- `EventStreamIter::next` (src/event_stream.rs:131-144): emit row `idx`
and advance the cursor, or `none` once the cursor reaches `len`. -/
def EventStreamIter.next (it : EventStreamIter) : Option (Event × EventStreamIter) :=
  if h : it.idx < it.len then
    some (it.stream.get ⟨it.idx, it.h_len ▸ h⟩,
          { it with idx := it.idx + 1 })
  else none

/-- Run an `EventStreamIter` to exhaustion, given enough fuel (`next` fails
after at most `len - idx` steps, so any `fuel ≥ len - idx` is enough). -/
def iterTake : Nat → EventStreamIter → List Event
  | 0, _ => []
  | fuel + 1, it =>
    match it.next with
    | none => []
    | some (e, it') => e :: iterTake fuel it'

/-- `RecordBatch` (arrow2): a record batch with the four-column schema of the
wire format.  Column lengths agree, as arrow2 guarantees for a batch. -/
structure RecordBatch where
  type_ : List Nat
  missed_events : List Nat
  channel : List Int
  time : List Picosecond
  h_me : missed_events.length = type_.length
  h_ch : channel.length = type_.length
  h_t : time.length = type_.length

/-- `RecordBatch::num_rows`. -/
def RecordBatch.num_rows (b : RecordBatch) : Nat := b.type_.length

/-- Modelled from the spec: `EventStream::from_streamed_batch` is not among
the provided sources (the provided event_stream.rs carries the `DMatrix`
variant of the stream).  Per the spec, an `EventBatch` is a zero-copy
structure-of-arrays view into the batch whose columns are the four Event
fields with identical length, so the view keeps the batch's columns and row
count unchanged. -/
def EventStream.from_streamed_batch (batch : RecordBatch) : EventStream :=
  { type_ := batch.type_
    missed_events := batch.missed_events
    channel := batch.channel
    time := batch.time
    h_me := batch.h_me
    h_ch := batch.h_ch
    h_t := batch.h_t }

/-- `AppState::get_event_stream` (src/point_cloud_renderer.rs:674-687). -/
def get_event_stream (batch : RecordBatch) : Option EventStream :=
  let event_stream := EventStream.from_streamed_batch batch
  if event_stream.num_rows = 0 then none else some event_stream

/-- One step of the source (`StreamReader::next` in populate_single_frame /
advance_till_first_frame_line): `ok` is `Ok(StreamState::Some(batch))`,
`waiting` is `Ok(StreamState::Waiting)` and `err` is `Err(_)`.  The end of
the list models end-of-stream (`next` returning `None`, after which
`is_finished` holds). -/
inductive StreamItem where
  | ok : RecordBatch → StreamItem
  | waiting : StreamItem
  | err : StreamItem

/-- The full event sequence a source will ever yield: the rows of its `ok`
batches, in order.  `waiting` and `err` items contribute no events. -/
def flattenSource : List StreamItem → List Event
  | [] => []
  | StreamItem.ok b :: src => (EventStream.from_streamed_batch b).toList ++ flattenSource src
  | StreamItem.waiting :: src => flattenSource src
  | StreamItem.err :: src => flattenSource src

/-- The scan both phases of `advance_till_first_frame_line`
(src/point_cloud_renderer.rs:439-453 and 510-525) perform: find the first
valid event (`type_ == 0`) whose channel maps to `Line` or `Frame`, and
return its `DataType`, its time and the unread remainder.  The two Rust
closures differ only in their logging arms. -/
def find_line_frame (inputs : Int → DataType) : List Event → Option (DataType × Picosecond × List Event)
  | [] => none
  | e :: rest =>
    if e.type_ = 0 then
      match inputs e.channel with
      | DataType.Line => some (DataType.Line, e.time, rest)
      | DataType.Frame => some (DataType.Frame, e.time, rest)
      | _ => find_line_frame inputs rest
    else find_line_frame inputs rest

/-- The state update `advance_till_first_frame_line` applies on finding the
first line/frame event (src/point_cloud_renderer.rs:454-470 and 526-534):
clear `lines_vec`, set `line_count` to 1 for a `Line` and 0 for a `Frame`,
and advance the snake's frame origin. -/
def apply_frame_start {σ : Type} (ops : SnakeOps σ) (s : AppState σ) (dt : DataType)
    (t : Picosecond) : AppState σ :=
  { s with lines_vec := []
           line_count := if dt = DataType.Line then 1 else 0
           snake := ops.update_snake_for_next_frame s.snake t }

/-- The batch loop of `advance_till_first_frame_line`
(src/point_cloud_renderer.rs:475-537): read batches until one contains a
line/frame event; skip `Waiting` states, extraction errors and zero-row
batches; stop with `none` at end of stream. -/
def advance_loop {σ : Type} (c : Ctx σ) :
    AppState σ → List StreamItem → AppState σ × List StreamItem × Option (List Event)
  | s, [] => (s, [], none)
  | s, StreamItem.waiting :: src => advance_loop c s src
  | s, StreamItem.err :: src => advance_loop c s src
  | s, StreamItem.ok b :: src =>
    match get_event_stream b with
    | none => advance_loop c s src
    | some es =>
      match find_line_frame c.inputs es.toList with
      | some (dt, t, rest) => (apply_frame_start c.ops s dt t, src, some rest)
      | none => advance_loop c s src

/-- `AppState::advance_till_first_frame_line`
(src/point_cloud_renderer.rs:431-539): scan the carry vector first, then
successive batches; besides the final state it returns the source suffix
not yet read and the new carry (`none` on exhaustion). -/
def advance_till_first_frame_line {σ : Type} (c : Ctx σ) (s : AppState σ)
    (event_stream : Option (List Event)) (source : List StreamItem) :
    AppState σ × List StreamItem × Option (List Event) :=
  match event_stream with
  | some previous_events =>
    match find_line_frame c.inputs previous_events with
    | some (dt, t, rest) => (apply_frame_start c.ops s dt t, source, some rest)
    | none => advance_loop c s source
  | none => advance_loop c s source

/-- The `find_map(act_on_single_event)` iteration inside
`drain_existing_data` (src/point_cloud_renderer.rs:305-306): dispatch events
in order until one yields a frame-boundary signal, returning the signal and
the unread remainder, or `none` if the sequence is exhausted. -/
def drain_loop {σ : Type} (c : Ctx σ) :
    AppState σ → List Event → AppState σ × Option (ProcessedEvent × List Event)
  | s, [] => (s, none)
  | s, e :: rest =>
    match act_on_single_event c s e with
    | (s', none) => drain_loop c s' rest
    | (s', some p) => (s', some (p, rest))

/-- `AppState::drain_existing_data` (src/point_cloud_renderer.rs:301-316).
The source suffix is threaded through because the `PhotonNewFrame` arm hands
the remaining events to `advance_till_first_frame_line`, which reads further
batches. -/
def drain_existing_data {σ : Type} (c : Ctx σ) (s : AppState σ) (events : List Event)
    (source : List StreamItem) : AppState σ × List StreamItem × Option (List Event) :=
  match drain_loop c s events with
  | (s', some (ProcessedEvent.FrameNewFrame, rest)) => (s', source, some rest)
  | (s', some (ProcessedEvent.LineNewFrame, rest)) => (s', source, some rest)
  | (s', some (ProcessedEvent.PhotonNewFrame, rest)) =>
      advance_till_first_frame_line c s' (some rest) source
  | (s', some _) => (s', source, none)
  | (s', none) => (s', source, none)

/-- The batch loop of `populate_single_frame`
(src/point_cloud_renderer.rs:343-387).  Per batch it performs exactly the
body of `drain_existing_data`; the `PhotonNewFrame`-and-exhausted case
returns directly because `advance_till_first_frame_line` only answers
`none` once the stream is finished, which also ends the Rust `while` loop
(the lemma `populate_loop_eq_drain` below recovers the factored form). -/
def populate_loop {σ : Type} (c : Ctx σ) :
    AppState σ → List StreamItem → AppState σ × List StreamItem × Option (List Event)
  | s, [] => (s, [], none)
  | s, StreamItem.waiting :: src => populate_loop c s src
  | s, StreamItem.err :: src => populate_loop c s src
  | s, StreamItem.ok b :: src =>
    match get_event_stream b with
    | none => populate_loop c s src
    | some es =>
      match drain_loop c s es.toList with
      | (s', some (ProcessedEvent.FrameNewFrame, rest)) => (s', src, some rest)
      | (s', some (ProcessedEvent.LineNewFrame, rest)) => (s', src, some rest)
      | (s', some (ProcessedEvent.PhotonNewFrame, rest)) =>
        match advance_till_first_frame_line c s' (some rest) src with
        | (s2, src2, some rem) => (s2, src2, some rem)
        | (s2, _, none) => (s2, [], none)
      | (s', some _) => populate_loop c s' src
      | (s', none) => populate_loop c s' src

/-- `AppState::populate_single_frame` (src/point_cloud_renderer.rs:329-388):
drain the leftover events of the previous frame first, then loop over fresh
batches. -/
def populate_single_frame {σ : Type} (c : Ctx σ) (s : AppState σ)
    (events_after_newframe : Option (List Event)) (source : List StreamItem) :
    AppState σ × List StreamItem × Option (List Event) :=
  match events_after_newframe with
  | some previous_events =>
    match drain_existing_data c s previous_events source with
    | (s', src', some remaining) => (s', src', some remaining)
    | (s', src', none) => populate_loop c s' src'
  | none => populate_loop c s source

/-- Reference process written from the specification's words for
`populate_single_frame` (spec 4.4): iterate the single flat event sequence
(carry first, then fresh batches), apply the dispatcher to each event and
accumulate `Displayed` outcomes, halt at the first `FrameNewFrame` or
`LineNewFrame` returning the remainder as carry, re-synchronize to the next
line/frame event on `PhotonNewFrame`, and return `none` on exhaustion. -/
def processFrameSpec {σ : Type} (c : Ctx σ) :
    AppState σ → List Event → AppState σ × Option (List Event)
  | s, [] => (s, none)
  | s, e :: rest =>
    match act_on_single_event c s e with
    | (s', none) => processFrameSpec c s' rest
    | (s', some ProcessedEvent.FrameNewFrame) => (s', some rest)
    | (s', some ProcessedEvent.LineNewFrame) => (s', some rest)
    | (s', some ProcessedEvent.PhotonNewFrame) =>
      match find_line_frame c.inputs rest with
      | some (dt, t, rest2) => (apply_frame_start c.ops s' dt t, some rest2)
      | none => (s', none)
    | (s', some _) => (s', none)

/-- Reference re-synchronization scan written from the specification's words
(spec 4.3/4.4): split a sequence into the events skipped while searching for
the next valid line/frame event, and (when found) that boundary event, its
`DataType` and the unread remainder. -/
def resyncSpec (inputs : Int → DataType) :
    List Event → List Event × Option (Event × DataType × List Event)
  | [] => ([], none)
  | e :: rest =>
    if e.type_ = 0 then
      match inputs e.channel with
      | DataType.Line => ([], some (e, DataType.Line, rest))
      | DataType.Frame => ([], some (e, DataType.Frame, rest))
      | _ =>
        let r := resyncSpec inputs rest
        (e :: r.1, r.2)
    else
      let r := resyncSpec inputs rest
      (e :: r.1, r.2)

/-- Reference accounting of one frame's consumption, written from the
specification's words (spec 4.4, "Leftover semantics"): partition the flat
event sequence into the events fed to the dispatcher, the events consumed by
a `PhotonNewFrame` re-synchronization (the skipped events plus the boundary
event it locks onto), and the leftover carry (`none` when exhausted). -/
def frameTrace {σ : Type} (c : Ctx σ) :
    AppState σ → List Event → List Event × List Event × Option (List Event)
  | _, [] => ([], [], none)
  | s, e :: rest =>
    match act_on_single_event c s e with
    | (s', none) =>
      let r := frameTrace c s' rest
      (e :: r.1, r.2.1, r.2.2)
    | (_, some ProcessedEvent.FrameNewFrame) => ([e], [], some rest)
    | (_, some ProcessedEvent.LineNewFrame) => ([e], [], some rest)
    | (_, some ProcessedEvent.PhotonNewFrame) =>
      match resyncSpec c.inputs rest with
      | (skipped, some (b, _, rest2)) => ([e], skipped ++ [b], some rest2)
      | (skipped, none) => ([e], skipped, none)
    | (_, some _) => ([e], [], none)

/-- The per-frame body of `AppState::start_acq_loop_for`
(src/point_cloud_renderer.rs:625-634), iterated `steps` times: populate a
frame, render the merge channel when `frame_number % rolling_avg == 0`
(recorded in the returned trace of rendered frame numbers; the direct
`channel_merge.render()` call touches no pipeline state), then pass the
carry through `advance_till_first_frame_line` again. -/
def acq_loop_for {σ : Type} (c : Ctx σ) (rolling_avg : Nat) :
    Nat → Nat → AppState σ → List StreamItem → Option (List Event) →
    (AppState σ × List StreamItem × Option (List Event)) × List Nat
  | 0, _, s, src, carry => ((s, src, carry), [])
  | steps + 1, frame_number, s, src, carry =>
    let r := populate_single_frame c s carry src
    let trace := if frame_number % rolling_avg = 0 then [frame_number] else []
    let a := advance_till_first_frame_line c r.1 r.2.2 r.2.1
    let rest := acq_loop_for c rolling_avg steps (frame_number + 1) a.1 a.2.1 a.2.2
    (rest.1, trace ++ rest.2)

/-- `AppState::start_acq_loop_for` (src/point_cloud_renderer.rs:620-637):
advance to the first frame line, then run the per-frame body `steps` times
starting from `frame_number = 1`. -/
def start_acq_loop_for {σ : Type} (c : Ctx σ) (steps : Nat) (rolling_avg : Nat)
    (s : AppState σ) (source : List StreamItem) :
    (AppState σ × List StreamItem × Option (List Event)) × List Nat :=
  let a := advance_till_first_frame_line c s none source
  acq_loop_for c rolling_avg steps 1 a.1 a.2.1 a.2.2

/-- The frame loop of `AppState::start_inf_acq_loop`
(src/point_cloud_renderer.rs:561-573), observed for `fuel` iterations (the
window-close poll ends the loop after at most `fuel` frames): populate a
frame; when `frame_number % rolling_avg == 0` enqueue a snapshot and render,
which drains and clears the frame buffers (recorded in the trace of rendered
frame numbers); stop as soon as the carry is `None`. -/
def inf_acq_loop {σ : Type} (c : Ctx σ) (rolling_avg : Nat) :
    Nat → Nat → AppState σ → List StreamItem → Option (List Event) →
    (AppState σ × List StreamItem × Option (List Event)) × List Nat
  | 0, _, s, src, carry => ((s, src, carry), [])
  | fuel + 1, frame_number, s, src, carry =>
    let r := populate_single_frame c s carry src
    let s2 := if frame_number % rolling_avg = 0 then { r.1 with frame_buffers := [] } else r.1
    let trace := if frame_number % rolling_avg = 0 then [frame_number] else []
    match r.2.2 with
    | none => ((s2, r.2.1, none), trace)
    | some rem =>
      let rest := inf_acq_loop c rolling_avg fuel (frame_number + 1) s2 r.2.1 (some rem)
      (rest.1, trace ++ rest.2)

/-- `AppState::start_inf_acq_loop` (src/point_cloud_renderer.rs:552-578),
observed for at most `fuel` frames: advance to the first frame line, then
run the frame loop from `frame_number = 1`. -/
def start_inf_acq_loop {σ : Type} (c : Ctx σ) (fuel : Nat) (rolling_avg : Nat)
    (s : AppState σ) (source : List StreamItem) :
    (AppState σ × List StreamItem × Option (List Event)) × List Nat :=
  let a := advance_till_first_frame_line c s none source
  inf_acq_loop c rolling_avg fuel 1 a.1 a.2.1 a.2.2

/-- One frame of `start_acq_loop_for` as the specification of the amended
claim words it: `populate_single_frame` followed by
`advance_till_first_frame_line` on the resulting carry. -/
def for_step {σ : Type} (c : Ctx σ)
    (x : AppState σ × List StreamItem × Option (List Event)) :
    AppState σ × List StreamItem × Option (List Event) :=
  let r := populate_single_frame c x.1 x.2.2 x.2.1
  advance_till_first_frame_line c r.1 r.2.2 r.2.1

/-- The frame numbers `fn, fn+1, ..., fn+steps-1` at which the render
cadence `frame_number % rolling_avg == 0` fires. -/
def cadence (rolling_avg : Nat) : Nat → Nat → List Nat
  | _, 0 => []
  | fn, steps + 1 => (if fn % rolling_avg = 0 then [fn] else []) ++ cadence rolling_avg (fn + 1) steps

/-- Concrete snake for witnesses: a trivial state whose operations all
answer `NoOp`. -/
def opsU : SnakeOps Unit where
  time_to_coord_linear := fun _ _ _ => ProcessedEvent.NoOp
  update_snake_for_next_frame := fun _ _ => ()
  new_taglens_period := fun _ _ => ((), ProcessedEvent.NoOp)
  new_laser_event := fun _ _ => ((), ProcessedEvent.NoOp)

/-- Concrete channel map for witnesses: 1 ↦ Pmt1, 2 ↦ Line, 3 ↦ Frame,
4 ↦ TagLens, 5 ↦ Laser, anything else Invalid. -/
def inputsW : Int → DataType := fun ch =>
  if ch = 1 then DataType.Pmt1
  else if ch = 2 then DataType.Line
  else if ch = 3 then DataType.Frame
  else if ch = 4 then DataType.TagLens
  else if ch = 5 then DataType.Laser
  else DataType.Invalid

/-- Concrete context for witnesses. -/
def ctxU : Ctx Unit where
  inputs := inputsW
  ops := opsU

/-- Concrete app state for witnesses, with the given line count and rows per
frame. -/
def stU (lc rows : Nat) : AppState Unit where
  snake := ()
  rows_per_frame := rows
  line_count := lc
  lines_vec := []
  frame_buffers := []

/-- Concrete one-row record batch for witnesses: the single valid event
`(0, 0, 1, 5)`. -/
def batchW : RecordBatch :=
  ⟨[0], [0], [1], [5], rfl, rfl, rfl⟩

/-- Concrete zero-row record batch for witnesses. -/
def batchZ : RecordBatch :=
  ⟨[], [], [], [], rfl, rfl, rfl⟩

/-- Concrete five-row record batch for the acquisition-loop counterexample:
rows_per_frame = 1, line events on channel 2 at times 0, 10 and 20 and
photon events on channel 1 at times 11 and 21. -/
def batchC : RecordBatch :=
  ⟨[0, 0, 0, 0, 0], [0, 0, 0, 0, 0], [2, 2, 1, 2, 1], [0, 10, 11, 20, 21], rfl, rfl, rfl⟩

/-- Concrete one-row event stream for witnesses. -/
def streamW : EventStream :=
  ⟨[0], [0], [1], [5], rfl, rfl, rfl⟩

/-- Claim C2: for every picosecond time `t`, if the framing state has
`line_count` equal to `rows_per_frame` then handling a line event at `t`
clears `lines_vec`, sets `line_count` to 0, calls
`update_snake_for_next_frame(t)` on the snake and returns `LineNewFrame`;
otherwise it pushes `t` onto `lines_vec`, increments `line_count` and
returns `NoOp`. -/
theorem handle_line_event_spec {σ : Type} (c : Ctx σ) (s : AppState σ) (t : Picosecond) :
    (s.line_count = s.rows_per_frame →
      (handle_line_event c s t).1.lines_vec = [] ∧
      (handle_line_event c s t).1.line_count = 0 ∧
      (handle_line_event c s t).1.snake = c.ops.update_snake_for_next_frame s.snake t ∧
      (handle_line_event c s t).2 = ProcessedEvent.LineNewFrame) ∧
    (s.line_count ≠ s.rows_per_frame →
      (handle_line_event c s t).1.lines_vec = s.lines_vec ++ [t] ∧
      (handle_line_event c s t).1.line_count = s.line_count + 1 ∧
      (handle_line_event c s t).1.snake = s.snake ∧
      (handle_line_event c s t).2 = ProcessedEvent.NoOp) := by
  constructor <;> intro h <;> simp [handle_line_event, h]

/-- Witness for C2: a full framing state (1 of 1 rows) rolls over with
`LineNewFrame`, a fresh one accepts the line with `NoOp`. -/
theorem handle_line_event_spec_witness :
    (handle_line_event ctxU (stU 1 1) 7).2 = ProcessedEvent.LineNewFrame ∧
    (handle_line_event ctxU (stU 0 1) 7).2 = ProcessedEvent.NoOp :=
  ⟨((handle_line_event_spec ctxU (stU 1 1) 7).1 rfl).2.2.2,
   ((handle_line_event_spec ctxU (stU 0 1) 7).2 (by decide)).2.2.2⟩

/-- Claim C8: for every framing state (any `line_count` and `lines_vec`
contents) and every time `t`, handling a frame-channel event at `t` clears
`lines_vec`, sets `line_count` to 0, calls `update_snake_for_next_frame(t)`
and returns `FrameNewFrame`. -/
theorem handle_frame_event_spec {σ : Type} (c : Ctx σ) (s : AppState σ) (t : Picosecond) :
    (handle_frame_event c s t).1.lines_vec = [] ∧
    (handle_frame_event c s t).1.line_count = 0 ∧
    (handle_frame_event c s t).1.snake = c.ops.update_snake_for_next_frame s.snake t ∧
    (handle_frame_event c s t).2 = ProcessedEvent.FrameNewFrame :=
  ⟨rfl, rfl, rfl, rfl⟩

/-- Claim C6: for every event whose type field is non-zero and for every
event whose channel maps to `Invalid`, `event_to_coordinate` returns `NoOp`
and leaves the dispatcher state (`line_count`, `lines_vec`, snake frame
origin, frame buffers) untouched. -/
theorem event_to_coordinate_discard {σ : Type} (c : Ctx σ) (s : AppState σ) (e : Event)
    (h : e.type_ ≠ 0 ∨ c.inputs e.channel = DataType.Invalid) :
    event_to_coordinate c s e = (s, ProcessedEvent.NoOp) := by
  rcases h with h | h
  · simp [event_to_coordinate, h]
  · by_cases ht : e.type_ = 0
    · simp [event_to_coordinate, ht, h]
    · simp [event_to_coordinate, ht]

/-- Witness for C6: the overflow event `(1, 5, 1, 500000)` of scenario S4
and the unknown-channel event `(0, 0, 99, 500000)` of scenario S5 are both
discarded without touching the state. -/
theorem event_to_coordinate_discard_witness :
    event_to_coordinate ctxU (stU 0 1) ⟨1, 5, 1, 500000⟩ = (stU 0 1, ProcessedEvent.NoOp) ∧
    event_to_coordinate ctxU (stU 0 1) ⟨0, 0, 99, 500000⟩ = (stU 0 1, ProcessedEvent.NoOp) :=
  ⟨event_to_coordinate_discard ctxU (stU 0 1) ⟨1, 5, 1, 500000⟩ (Or.inl (by decide)),
   event_to_coordinate_discard ctxU (stU 0 1) ⟨0, 0, 99, 500000⟩ (Or.inr (by decide))⟩

/-- Claim C7: every valid event (type 0) is routed by the `DataType` of its
channel: `Pmt1`..`Pmt4` to `time_to_coord_linear` with spectral channel
0..3, `Line` to the line handler, `Frame` to the frame handler, `TagLens` to
`new_taglens_period` and `Laser` to `new_laser_event`. -/
theorem event_to_coordinate_routing {σ : Type} (c : Ctx σ) (s : AppState σ) (e : Event)
    (h : e.type_ = 0) :
    (c.inputs e.channel = DataType.Pmt1 →
       event_to_coordinate c s e = (s, c.ops.time_to_coord_linear s.snake e.time 0)) ∧
    (c.inputs e.channel = DataType.Pmt2 →
       event_to_coordinate c s e = (s, c.ops.time_to_coord_linear s.snake e.time 1)) ∧
    (c.inputs e.channel = DataType.Pmt3 →
       event_to_coordinate c s e = (s, c.ops.time_to_coord_linear s.snake e.time 2)) ∧
    (c.inputs e.channel = DataType.Pmt4 →
       event_to_coordinate c s e = (s, c.ops.time_to_coord_linear s.snake e.time 3)) ∧
    (c.inputs e.channel = DataType.Line →
       event_to_coordinate c s e = handle_line_event c s e.time) ∧
    (c.inputs e.channel = DataType.Frame →
       event_to_coordinate c s e = handle_frame_event c s e.time) ∧
    (c.inputs e.channel = DataType.TagLens →
       event_to_coordinate c s e =
         ({ s with snake := (c.ops.new_taglens_period s.snake e.time).1 },
          (c.ops.new_taglens_period s.snake e.time).2)) ∧
    (c.inputs e.channel = DataType.Laser →
       event_to_coordinate c s e =
         ({ s with snake := (c.ops.new_laser_event s.snake e.time).1 },
          (c.ops.new_laser_event s.snake e.time).2)) := by
  refine ⟨?_, ?_, ?_, ?_, ?_, ?_, ?_, ?_⟩ <;> intro hc <;> simp [event_to_coordinate, h, hc]

/-- Witness for C7: a photon on channel 1 reaches the snake lookup with
spectral channel 0, and a pulse on channel 2 reaches the line handler. -/
theorem event_to_coordinate_routing_witness :
    event_to_coordinate ctxU (stU 0 1) ⟨0, 0, 1, 9⟩
      = (stU 0 1, ctxU.ops.time_to_coord_linear () 9 0) ∧
    event_to_coordinate ctxU (stU 0 1) ⟨0, 0, 2, 9⟩ = handle_line_event ctxU (stU 0 1) 9 :=
  ⟨(event_to_coordinate_routing ctxU (stU 0 1) ⟨0, 0, 1, 9⟩ rfl).1 (by decide),
   (event_to_coordinate_routing ctxU (stU 0 1) ⟨0, 0, 2, 9⟩ rfl).2.2.2.2.1 (by decide)⟩

/-- Claim C9: `get_event_stream` answers `none` exactly for a zero-row
batch, otherwise the event stream over the batch; the pipeline therefore
skips a zero-row batch rather than processing it. -/
theorem get_event_stream_spec (batch : RecordBatch) :
    (batch.num_rows = 0 → get_event_stream batch = none) ∧
    (batch.num_rows ≠ 0 →
       get_event_stream batch = some (EventStream.from_streamed_batch batch)) ∧
    (∀ {σ : Type} (c : Ctx σ) (s : AppState σ) (src : List StreamItem),
       batch.num_rows = 0 →
       populate_loop c s (StreamItem.ok batch :: src) = populate_loop c s src) := by
  have hn : (EventStream.from_streamed_batch batch).num_rows = batch.num_rows := rfl
  refine ⟨fun h => ?_, fun h => ?_, fun c s src h => ?_⟩
  · simp [get_event_stream, hn, h]
  · simp [get_event_stream, hn, h]
  · have : get_event_stream batch = none := by simp [get_event_stream, hn, h]
    simp [populate_loop, this]

/-- Witness for C9: the zero-row batch is refused and skipped by the frame
loop, the one-row batch is turned into its stream. -/
theorem get_event_stream_spec_witness :
    get_event_stream batchZ = none ∧
    get_event_stream batchW = some (EventStream.from_streamed_batch batchW) ∧
    populate_loop ctxU (stU 0 1) [StreamItem.ok batchZ] = populate_loop ctxU (stU 0 1) [] :=
  ⟨(get_event_stream_spec batchZ).1 rfl,
   (get_event_stream_spec batchW).2.1 (by decide),
   (get_event_stream_spec batchZ).2.2 ctxU (stU 0 1) [] rfl⟩

/-- Claim C10: `Event::from_stream_idx` is total: row `idx`, assembled from
the four column arrays, when `idx` is strictly below `num_rows`, and `none`
(no out-of-bounds access) otherwise. -/
theorem from_stream_idx_total (stream : EventStream) (idx : Nat) :
    (∀ h : idx < stream.num_rows,
       Event.from_stream_idx stream idx = some (stream.get ⟨idx, h⟩)) ∧
    (stream.num_rows ≤ idx → Event.from_stream_idx stream idx = none) := by
  constructor
  · intro h
    simp [Event.from_stream_idx, h]
  · intro h
    simp [Event.from_stream_idx, Nat.not_lt.mpr h]

/-- Witness for C10: in the one-row stream, index 0 yields the event and
index 7 is rejected. -/
theorem from_stream_idx_total_witness :
    Event.from_stream_idx streamW 0 = some ⟨0, 0, 1, 5⟩ ∧
    Event.from_stream_idx streamW 7 = none :=
  ⟨((from_stream_idx_total streamW 0).1 (by decide)).trans (by decide),
   (from_stream_idx_total streamW 7).2 (by decide)⟩

/-- The event list of a stream has one entry per row. -/
theorem toList_length (s : EventStream) : s.toList.length = s.num_rows :=
  List.length_ofFn _

/-- When `get_event_stream` accepts a batch, the stream it returns is the
view over that batch. -/
theorem get_event_stream_some {b : RecordBatch} {es : EventStream}
    (h : get_event_stream b = some es) : es = EventStream.from_streamed_batch b := by
  by_cases hz : (EventStream.from_streamed_batch b).num_rows = 0
  · simp [get_event_stream, hz] at h
  · simp [get_event_stream, hz] at h
    exact h.symm

/-- When `get_event_stream` refuses a batch, the batch contributes no
events. -/
theorem get_event_stream_none {b : RecordBatch} (h : get_event_stream b = none) :
    (EventStream.from_streamed_batch b).toList = [] := by
  by_cases hz : (EventStream.from_streamed_batch b).num_rows = 0
  · exact List.eq_nil_of_length_eq_zero ((toList_length _).trans hz)
  · simp [get_event_stream, hz] at h

/-- Scanning a concatenation for the first line/frame event: a hit in the
first part keeps the second part unread; otherwise the scan continues into
the second part. -/
theorem find_line_frame_append (inputs : Int → DataType) (l₁ l₂ : List Event) :
    find_line_frame inputs (l₁ ++ l₂) =
      match find_line_frame inputs l₁ with
      | some (dt, t, r) => some (dt, t, r ++ l₂)
      | none => find_line_frame inputs l₂ := by
  induction l₁ with
  | nil => simp [find_line_frame]
  | cons e tl ih =>
    by_cases ht : e.type_ = 0
    · cases hdt : inputs e.channel <;> simp [find_line_frame, ht, hdt, ih]
    · simp [find_line_frame, ht, ih]

/-- `act_on_single_event` only ever halts `find_map` with one of the three
new-frame signals. -/
theorem act_signal {σ : Type} (c : Ctx σ) (s : AppState σ) (e : Event) (p : ProcessedEvent)
    (h : (act_on_single_event c s e).2 = some p) :
    p = ProcessedEvent.FrameNewFrame ∨ p = ProcessedEvent.LineNewFrame ∨
      p = ProcessedEvent.PhotonNewFrame := by
  unfold act_on_single_event at h
  rcases hev : event_to_coordinate c s e with ⟨s', pe⟩
  rw [hev] at h
  cases pe <;> simp_all

/-- Ditto for a halted `drain_loop`. -/
theorem drain_loop_signal {σ : Type} (c : Ctx σ) {s s' : AppState σ} {evs : List Event}
    {p : ProcessedEvent} {rest : List Event}
    (h : drain_loop c s evs = (s', some (p, rest))) :
    p = ProcessedEvent.FrameNewFrame ∨ p = ProcessedEvent.LineNewFrame ∨
      p = ProcessedEvent.PhotonNewFrame := by
  induction evs generalizing s with
  | nil => simp [drain_loop] at h
  | cons e tl ih =>
    unfold drain_loop at h
    rcases ha : act_on_single_event c s e with ⟨s1, po⟩
    rw [ha] at h
    cases po with
    | none => exact ih h
    | some q =>
      simp only [Prod.mk.injEq, Option.some.injEq] at h
      obtain ⟨-, hq, -⟩ := h
      exact hq ▸ act_signal c s e q (by rw [ha])

/-- Draining a concatenation: a signal inside the first part leaves the
second part unread; otherwise draining resumes on the second part in the
state the first part produced. -/
theorem drain_loop_append {σ : Type} (c : Ctx σ) (s : AppState σ) (l₁ l₂ : List Event) :
    drain_loop c s (l₁ ++ l₂) =
      match drain_loop c s l₁ with
      | (s', none) => drain_loop c s' l₂
      | (s', some (p, r)) => (s', some (p, r ++ l₂)) := by
  induction l₁ generalizing s with
  | nil => simp [drain_loop]
  | cons e tl ih =>
    simp only [List.cons_append, drain_loop]
    rcases ha : act_on_single_event c s e with ⟨s1, po⟩
    cases po <;> simp [ih]

/-- The flat reference process is the drain of the whole sequence followed
by the signal dispatch of `drain_existing_data`. -/
theorem processFrameSpec_eq_drain {σ : Type} (c : Ctx σ) (s : AppState σ) (evs : List Event) :
    processFrameSpec c s evs =
      match drain_loop c s evs with
      | (s', none) => (s', none)
      | (s', some (ProcessedEvent.FrameNewFrame, rest)) => (s', some rest)
      | (s', some (ProcessedEvent.LineNewFrame, rest)) => (s', some rest)
      | (s', some (ProcessedEvent.PhotonNewFrame, rest)) =>
        match find_line_frame c.inputs rest with
        | some (dt, t, rest2) => (apply_frame_start c.ops s' dt t, some rest2)
        | none => (s', none)
      | (s', some (_, _)) => (s', none) := by
  induction evs generalizing s with
  | nil => simp [processFrameSpec, drain_loop]
  | cons e tl ih =>
    unfold processFrameSpec drain_loop
    rcases ha : act_on_single_event c s e with ⟨s1, po⟩
    cases po with
    | none => simp [ih]
    | some q => cases q <;> simp

/-- Draining `l₁` without a signal: the reference process continues on the
rest of the sequence in the produced state. -/
theorem processFrameSpec_append_none {σ : Type} (c : Ctx σ) {s s1 : AppState σ}
    {l₁ : List Event} (l₂ : List Event) (hd : drain_loop c s l₁ = (s1, none)) :
    processFrameSpec c s (l₁ ++ l₂) = processFrameSpec c s1 l₂ := by
  rw [processFrameSpec_eq_drain, drain_loop_append, hd, ← processFrameSpec_eq_drain]

/-- A `FrameNewFrame` inside `l₁`: the reference process halts there with
everything after the signal as carry. -/
theorem processFrameSpec_append_frame {σ : Type} (c : Ctx σ) {s s1 : AppState σ}
    {l₁ r : List Event} (l₂ : List Event)
    (hd : drain_loop c s l₁ = (s1, some (ProcessedEvent.FrameNewFrame, r))) :
    processFrameSpec c s (l₁ ++ l₂) = (s1, some (r ++ l₂)) := by
  rw [processFrameSpec_eq_drain, drain_loop_append, hd]

/-- A `LineNewFrame` inside `l₁`: the reference process halts there with
everything after the signal as carry. -/
theorem processFrameSpec_append_line {σ : Type} (c : Ctx σ) {s s1 : AppState σ}
    {l₁ r : List Event} (l₂ : List Event)
    (hd : drain_loop c s l₁ = (s1, some (ProcessedEvent.LineNewFrame, r))) :
    processFrameSpec c s (l₁ ++ l₂) = (s1, some (r ++ l₂)) := by
  rw [processFrameSpec_eq_drain, drain_loop_append, hd]

/-- A `PhotonNewFrame` inside `l₁`: the reference process re-synchronizes on
everything after the signal. -/
theorem processFrameSpec_append_photon {σ : Type} (c : Ctx σ) {s s1 : AppState σ}
    {l₁ r : List Event} (l₂ : List Event)
    (hd : drain_loop c s l₁ = (s1, some (ProcessedEvent.PhotonNewFrame, r))) :
    processFrameSpec c s (l₁ ++ l₂) =
      match find_line_frame c.inputs (r ++ l₂) with
      | some (dt, t, rest2) => (apply_frame_start c.ops s1 dt t, some rest2)
      | none => (s1, none) := by
  rw [processFrameSpec_eq_drain, drain_loop_append, hd]

/-- The batch loop of `advance_till_first_frame_line` finds nothing exactly
when the source's flat event sequence has no line/frame event; the state is
untouched and the source exhausted. -/
theorem advance_loop_none {σ : Type} (c : Ctx σ) (source : List StreamItem) :
    ∀ s : AppState σ, find_line_frame c.inputs (flattenSource source) = none →
      advance_loop c s source = (s, [], none) := by
  induction source with
  | nil => intro s _; rfl
  | cons item src ih =>
    intro s h
    cases item with
    | waiting => rw [flattenSource] at h; simpa [advance_loop] using ih s h
    | err => rw [flattenSource] at h; simpa [advance_loop] using ih s h
    | ok b =>
      rw [flattenSource, find_line_frame_append] at h
      cases hfb : find_line_frame c.inputs (EventStream.from_streamed_batch b).toList with
      | some v => rw [hfb] at h; rcases v with ⟨dt, t, r⟩; simp at h
      | none =>
        rw [hfb] at h
        cases hges : get_event_stream b with
        | none => simpa [advance_loop, hges] using ih s h
        | some es =>
          obtain rfl := get_event_stream_some hges
          simpa [advance_loop, hges, hfb] using ih s h

/-- The batch loop of `advance_till_first_frame_line` on a source whose flat
event sequence does hold a line/frame event at time `t`: it applies the
frame-start update for `t` and resumes after that event. -/
theorem advance_loop_some {σ : Type} (c : Ctx σ) (source : List StreamItem) :
    ∀ (s : AppState σ) (dt : DataType) (t : Picosecond) (rest : List Event),
      find_line_frame c.inputs (flattenSource source) = some (dt, t, rest) →
      ∃ src' rem,
        advance_loop c s source = (apply_frame_start c.ops s dt t, src', some rem) ∧
        rem ++ flattenSource src' = rest := by
  induction source with
  | nil => intro s dt t rest h; rw [flattenSource, find_line_frame] at h; exact absurd h (by simp)
  | cons item src ih =>
    intro s dt t rest h
    cases item with
    | waiting =>
      rw [flattenSource] at h
      simpa [advance_loop] using ih s dt t rest h
    | err =>
      rw [flattenSource] at h
      simpa [advance_loop] using ih s dt t rest h
    | ok b =>
      rw [flattenSource, find_line_frame_append] at h
      cases hfb : find_line_frame c.inputs (EventStream.from_streamed_batch b).toList with
      | some v =>
        rcases v with ⟨dt', t', r⟩
        rw [hfb] at h
        simp only [Option.some.injEq, Prod.mk.injEq] at h
        obtain ⟨h1, h2, h3⟩ := h
        subst h1; subst h2
        cases hges : get_event_stream b with
        | none =>
          have := get_event_stream_none hges
          rw [this, find_line_frame] at hfb
          exact absurd hfb (by simp)
        | some es =>
          obtain rfl := get_event_stream_some hges
          refine ⟨src, r, ?_, h3⟩
          simp [advance_loop, hges, hfb]
      | none =>
        rw [hfb] at h
        cases hges : get_event_stream b with
        | none => simpa [advance_loop, hges] using ih s dt t rest h
        | some es =>
          obtain rfl := get_event_stream_some hges
          simpa [advance_loop, hges, hfb] using ih s dt t rest h

/-- `advance_till_first_frame_line` finds nothing exactly when neither the
carry nor the source's flat event sequence holds a line/frame event. -/
theorem advance_till_none {σ : Type} (c : Ctx σ) (s : AppState σ) (carry : List Event)
    (source : List StreamItem)
    (h : find_line_frame c.inputs (carry ++ flattenSource source) = none) :
    advance_till_first_frame_line c s (some carry) source = (s, [], none) := by
  rw [find_line_frame_append] at h
  cases hfc : find_line_frame c.inputs carry with
  | some v => rw [hfc] at h; rcases v with ⟨dt, t, r⟩; simp at h
  | none =>
    rw [hfc] at h
    simpa [advance_till_first_frame_line, hfc] using advance_loop_none c source s h

/-- `advance_till_first_frame_line` on a carry-plus-source whose flat event
sequence holds a line/frame event at time `t`: it applies the frame-start
update for `t` and resumes after that event. -/
theorem advance_till_some {σ : Type} (c : Ctx σ) (s : AppState σ) (carry : List Event)
    (source : List StreamItem) (dt : DataType) (t : Picosecond) (rest : List Event)
    (h : find_line_frame c.inputs (carry ++ flattenSource source) = some (dt, t, rest)) :
    ∃ src' rem,
      advance_till_first_frame_line c s (some carry) source
        = (apply_frame_start c.ops s dt t, src', some rem) ∧
      rem ++ flattenSource src' = rest := by
  rw [find_line_frame_append] at h
  cases hfc : find_line_frame c.inputs carry with
  | some v =>
    rcases v with ⟨dt', t', r⟩
    rw [hfc] at h
    simp only [Option.some.injEq, Prod.mk.injEq] at h
    obtain ⟨h1, h2, h3⟩ := h
    subst h1; subst h2
    exact ⟨source, r, by simp [advance_till_first_frame_line, hfc], h3⟩
  | none =>
    rw [hfc] at h
    obtain ⟨src', rem, ha, hr⟩ := advance_loop_some c source s dt t rest h
    exact ⟨src', rem, by simpa [advance_till_first_frame_line, hfc] using ha, hr⟩

/-- The batch loop of `populate_single_frame` agrees with the reference
process run on the source's flat event sequence: same final state, and the
unread remainder (carry plus unread source) is the reference carry; a `none`
carry is only answered with the source exhausted. -/
theorem populate_loop_corr {σ : Type} (c : Ctx σ) (source : List StreamItem) :
    ∀ s : AppState σ,
      (populate_loop c s source).1 = (processFrameSpec c s (flattenSource source)).1 ∧
      Option.map (fun rem => rem ++ flattenSource (populate_loop c s source).2.1)
          (populate_loop c s source).2.2
        = (processFrameSpec c s (flattenSource source)).2 ∧
      ((populate_loop c s source).2.2 = none → (populate_loop c s source).2.1 = []) := by
  induction source with
  | nil => intro s; exact ⟨rfl, rfl, fun _ => rfl⟩
  | cons item src ih =>
    intro s
    cases item with
    | waiting => simpa [populate_loop, flattenSource] using ih s
    | err => simpa [populate_loop, flattenSource] using ih s
    | ok b =>
      cases hges : get_event_stream b with
      | none =>
        have htl := get_event_stream_none hges
        simpa [populate_loop, hges, flattenSource, htl] using ih s
      | some es =>
        obtain rfl := get_event_stream_some hges
        rcases hd : drain_loop c s (EventStream.from_streamed_batch b).toList with ⟨s1, po⟩
        cases po with
        | none =>
          have hspec := processFrameSpec_append_none c (flattenSource src) hd
          have hpop : populate_loop c s (StreamItem.ok b :: src) = populate_loop c s1 src := by
            simp [populate_loop, hges, hd]
          rw [hpop, flattenSource, hspec]
          exact ih s1
        | some pr =>
          rcases pr with ⟨p, rest⟩
          rcases drain_loop_signal c hd with hp | hp | hp <;> subst hp
          · have hspec := processFrameSpec_append_frame c (flattenSource src) hd
            have hpop : populate_loop c s (StreamItem.ok b :: src) = (s1, src, some rest) := by
              simp [populate_loop, hges, hd]
            rw [hpop, flattenSource, hspec]
            exact ⟨rfl, rfl, by simp⟩
          · have hspec := processFrameSpec_append_line c (flattenSource src) hd
            have hpop : populate_loop c s (StreamItem.ok b :: src) = (s1, src, some rest) := by
              simp [populate_loop, hges, hd]
            rw [hpop, flattenSource, hspec]
            exact ⟨rfl, rfl, by simp⟩
          · have hspec := processFrameSpec_append_photon c (flattenSource src) hd
            cases hf : find_line_frame c.inputs (rest ++ flattenSource src) with
            | some v =>
              rcases v with ⟨dt, t, r2⟩
              obtain ⟨src', rem, hadv, hrem⟩ := advance_till_some c s1 rest src dt t r2 hf
              have hpop : populate_loop c s (StreamItem.ok b :: src)
                  = (apply_frame_start c.ops s1 dt t, src', some rem) := by
                simp [populate_loop, hges, hd, hadv]
              rw [hpop, flattenSource, hspec, hf]
              exact ⟨rfl, by simp [hrem], by simp⟩
            | none =>
              have hadv := advance_till_none c s1 rest src hf
              have hpop : populate_loop c s (StreamItem.ok b :: src) = (s1, [], none) := by
                simp [populate_loop, hges, hd, hadv]
              rw [hpop]
              simp only [flattenSource]
              rw [hspec, hf]
              simp

/-- `populate_single_frame` agrees with the reference process run on carry
plus flat source: same final state, the unread remainder is the reference
carry, and a `none` carry is only answered with the source exhausted. -/
theorem populate_single_frame_corr {σ : Type} (c : Ctx σ) (s : AppState σ)
    (carry : List Event) (source : List StreamItem) :
    (populate_single_frame c s (some carry) source).1
      = (processFrameSpec c s (carry ++ flattenSource source)).1 ∧
    Option.map
        (fun rem => rem ++ flattenSource (populate_single_frame c s (some carry) source).2.1)
        (populate_single_frame c s (some carry) source).2.2
      = (processFrameSpec c s (carry ++ flattenSource source)).2 ∧
    ((populate_single_frame c s (some carry) source).2.2 = none →
      (populate_single_frame c s (some carry) source).2.1 = []) := by
  rcases hd : drain_loop c s carry with ⟨s1, po⟩
  cases po with
  | none =>
    have hspec := processFrameSpec_append_none c (flattenSource source) hd
    have hpop : populate_single_frame c s (some carry) source = populate_loop c s1 source := by
      simp [populate_single_frame, drain_existing_data, hd]
    rw [hpop, hspec]
    exact populate_loop_corr c source s1
  | some pr =>
    rcases pr with ⟨p, rest⟩
    rcases drain_loop_signal c hd with hp | hp | hp <;> subst hp
    · have hspec := processFrameSpec_append_frame c (flattenSource source) hd
      have hpop : populate_single_frame c s (some carry) source = (s1, source, some rest) := by
        simp [populate_single_frame, drain_existing_data, hd]
      rw [hpop, hspec]
      exact ⟨rfl, rfl, by simp⟩
    · have hspec := processFrameSpec_append_line c (flattenSource source) hd
      have hpop : populate_single_frame c s (some carry) source = (s1, source, some rest) := by
        simp [populate_single_frame, drain_existing_data, hd]
      rw [hpop, hspec]
      exact ⟨rfl, rfl, by simp⟩
    · have hspec := processFrameSpec_append_photon c (flattenSource source) hd
      cases hf : find_line_frame c.inputs (rest ++ flattenSource source) with
      | some v =>
        rcases v with ⟨dt, t, r2⟩
        obtain ⟨src', rem, hadv, hrem⟩ := advance_till_some c s1 rest source dt t r2 hf
        have hpop : populate_single_frame c s (some carry) source
            = (apply_frame_start c.ops s1 dt t, src', some rem) := by
          simp [populate_single_frame, drain_existing_data, hd, hadv]
        rw [hpop, hspec, hf]
        exact ⟨rfl, by simp [hrem], by simp⟩
      | none =>
        have hadv := advance_till_none c s1 rest source hf
        have hpop : populate_single_frame c s (some carry) source = (s1, [], none) := by
          simp [populate_single_frame, drain_existing_data, hd, hadv, populate_loop]
        rw [hpop, hspec, hf]
        exact ⟨rfl, rfl, fun _ => rfl⟩

/-- The re-synchronization split reassembles the scanned list: the skipped
events, then (when found) the boundary event and the remainder. -/
theorem resyncSpec_conservation (inputs : Int → DataType) :
    ∀ l : List Event,
      (resyncSpec inputs l).1 ++
        (match (resyncSpec inputs l).2 with
         | some (b, _, rest) => b :: rest
         | none => []) = l := by
  intro l
  induction l with
  | nil => simp [resyncSpec]
  | cons e tl ih =>
    by_cases ht : e.type_ = 0
    · cases hdt : inputs e.channel <;> simp [resyncSpec, ht, hdt] <;> simpa using ih
    · simp [resyncSpec, ht]
      simpa using ih

/-- A successful re-synchronization split reassembles the scanned list. -/
theorem resyncSpec_some (inputs : Int → DataType) {l skipped : List Event} {b : Event}
    {dt : DataType} {rest : List Event}
    (h : resyncSpec inputs l = (skipped, some (b, dt, rest))) : skipped ++ b :: rest = l := by
  have hc := resyncSpec_conservation inputs l
  rw [h] at hc
  simpa using hc

/-- A failed re-synchronization scan has skipped the whole list. -/
theorem resyncSpec_none (inputs : Int → DataType) {l skipped : List Event}
    (h : resyncSpec inputs l = (skipped, none)) : skipped = l := by
  have hc := resyncSpec_conservation inputs l
  rw [h] at hc
  simpa using hc

/-- The reference accounting reassembles the flat sequence: dispatched
events, then re-synchronization-consumed events, then the leftover carry. -/
theorem frameTrace_conservation {σ : Type} (c : Ctx σ) :
    ∀ (evs : List Event) (s : AppState σ),
      (frameTrace c s evs).1 ++ (frameTrace c s evs).2.1
          ++ ((frameTrace c s evs).2.2).getD [] = evs := by
  intro evs
  induction evs with
  | nil => intro s; simp [frameTrace]
  | cons e tl ih =>
    intro s
    rcases ha : act_on_single_event c s e with ⟨s1, po⟩
    cases po with
    | none =>
      simp only [frameTrace, ha]
      simpa using ih s1
    | some q =>
      rcases act_signal c s e q (by rw [ha]) with hq | hq | hq <;> subst hq
      · simp [frameTrace, ha]
      · simp [frameTrace, ha]
      · rcases hr : resyncSpec c.inputs tl with ⟨sk, o⟩
        cases o with
        | none =>
          have hsk := resyncSpec_none c.inputs hr
          simp [frameTrace, ha, hr, hsk]
        | some v =>
          rcases v with ⟨b, dt, rest2⟩
          have hsk := resyncSpec_some c.inputs hr
          simp only [frameTrace, ha, hr]
          simpa [List.append_assoc] using hsk

/-- The re-synchronization split finds exactly what `find_line_frame`
finds. -/
theorem resyncSpec_find (inputs : Int → DataType) :
    ∀ l : List Event,
      find_line_frame inputs l =
        match (resyncSpec inputs l).2 with
        | some (b, dt, rest) => some (dt, b.time, rest)
        | none => none := by
  intro l
  induction l with
  | nil => simp [find_line_frame, resyncSpec]
  | cons e tl ih =>
    by_cases ht : e.type_ = 0
    · cases hdt : inputs e.channel <;> simp [find_line_frame, resyncSpec, ht, hdt, ih]
    · simp [find_line_frame, resyncSpec, ht, ih]

/-- The leftover carry of the reference accounting is the reference
process's carry. -/
theorem frameTrace_carry {σ : Type} (c : Ctx σ) :
    ∀ (evs : List Event) (s : AppState σ),
      (frameTrace c s evs).2.2 = (processFrameSpec c s evs).2 := by
  intro evs
  induction evs with
  | nil => intro s; rfl
  | cons e tl ih =>
    intro s
    rcases ha : act_on_single_event c s e with ⟨s1, po⟩
    cases po with
    | none =>
      simp only [frameTrace, processFrameSpec, ha]
      exact ih s1
    | some q =>
      rcases act_signal c s e q (by rw [ha]) with hq | hq | hq <;> subst hq
      · simp [frameTrace, processFrameSpec, ha]
      · simp [frameTrace, processFrameSpec, ha]
      · have hfind := resyncSpec_find c.inputs tl
        rcases hr : resyncSpec c.inputs tl with ⟨sk, o⟩
        rw [hr] at hfind
        cases o with
        | none => simp [frameTrace, processFrameSpec, ha, hr, hfind]
        | some v =>
          rcases v with ⟨b, dt, rest2⟩
          simp [frameTrace, processFrameSpec, ha, hr, hfind]

/-- `EventStreamIter::next` at cursor `k` consumes exactly row `k` and moves
the cursor to `k + 1`; it never restarts from the beginning and never reads
past the length. -/
theorem iter_next_step (st : EventStream) (k : Nat) :
    EventStreamIter.next ⟨st, k, st.num_rows, rfl⟩
      = if h : k < st.num_rows
        then some (st.get ⟨k, h⟩, ⟨st, k + 1, st.num_rows, rfl⟩)
        else none := rfl

/-- Resuming iteration at cursor `k` yields exactly the unread suffix of the
stream's event list. -/
theorem iterTake_eq_drop (st : EventStream) :
    ∀ (fuel k : Nat), st.num_rows - k ≤ fuel →
      iterTake fuel ⟨st, k, st.num_rows, rfl⟩ = st.toList.drop k := by
  intro fuel
  induction fuel with
  | zero =>
    intro k h
    have hlen : st.toList.length ≤ k := by rw [toList_length]; omega
    rw [List.drop_eq_nil_of_le hlen]
    rfl
  | succ n ih =>
    intro k h
    by_cases hk : k < st.num_rows
    · have hnext : EventStreamIter.next ⟨st, k, st.num_rows, rfl⟩
          = some (st.get ⟨k, hk⟩, ⟨st, k + 1, st.num_rows, rfl⟩) := by
        rw [iter_next_step]
        simp [hk]
      simp only [iterTake, hnext]
      rw [ih (k + 1) (by omega)]
      have hlt : k < st.toList.length := by rw [toList_length]; exact hk
      rw [List.drop_eq_getElem_cons hlt]
      congr 1
      simp [EventStream.toList, List.getElem_ofFn]
    · have hnext : EventStreamIter.next ⟨st, k, st.num_rows, rfl⟩ = none := by
        rw [iter_next_step]
        simp [hk]
      simp only [iterTake, hnext]
      rw [List.drop_eq_nil_of_le (by rw [toList_length]; omega)]

/-- Claim C1: for every carry vector and source state,
`populate_single_frame` behaves as the reference frame process on the flat
event sequence (carry first, then fresh batches): the dispatcher is applied
to each event in order with `Displayed` outcomes accumulated into the frame
buffers (the final app states agree), iteration halts at the first event
whose dispatch yields `FrameNewFrame` or `LineNewFrame` with the remaining
unread events as the new carry, a `PhotonNewFrame` dispatch hands the
remaining events to the `advance_till_first_frame_line` re-synchronization,
and the answer is `none` exactly when the source is exhausted without
reaching a frame boundary (the unread source is then empty). -/
theorem populate_single_frame_spec {σ : Type} (c : Ctx σ) (s : AppState σ)
    (carry : List Event) (source : List StreamItem) :
    (populate_single_frame c s (some carry) source).1
      = (processFrameSpec c s (carry ++ flattenSource source)).1 ∧
    Option.map
        (fun rem => rem ++ flattenSource (populate_single_frame c s (some carry) source).2.1)
        (populate_single_frame c s (some carry) source).2.2
      = (processFrameSpec c s (carry ++ flattenSource source)).2 ∧
    ((populate_single_frame c s (some carry) source).2.2 = none →
      (populate_single_frame c s (some carry) source).2.1 = []) :=
  populate_single_frame_corr c s carry source

/-- Witness for C1: a carry holding a lone photon and an exhausted source
end the frame with no leftover source, as the third conjunct states. -/
theorem populate_single_frame_spec_witness :
    (populate_single_frame ctxU (stU 0 1) (some [⟨0, 0, 1, 5⟩]) []).2.1 = [] :=
  (populate_single_frame_spec ctxU (stU 0 1) [⟨0, 0, 1, 5⟩] []).2.2 (by decide)

/-- Claim C3: `advance_till_first_frame_line` consumes events (carry first,
then successive batches) up to the first valid (type 0) event whose channel
maps to `Line` or `Frame`; finding one at time `t` it sets `line_count` to 1
for a line and 0 for a frame, clears `lines_vec`, calls
`update_snake_for_next_frame(t)` and returns the remaining unread events as
the new carry; when carry and source are exhausted without such an event it
returns `none` with the state untouched. -/
theorem advance_till_first_frame_line_spec {σ : Type} (c : Ctx σ) (s : AppState σ)
    (carry : List Event) (source : List StreamItem) :
    (∀ (dt : DataType) (t : Picosecond) (rest : List Event),
       find_line_frame c.inputs (carry ++ flattenSource source) = some (dt, t, rest) →
       (advance_till_first_frame_line c s (some carry) source).1
           = { s with lines_vec := []
                      line_count := if dt = DataType.Line then 1 else 0
                      snake := c.ops.update_snake_for_next_frame s.snake t } ∧
       Option.map
           (fun rem =>
             rem ++ flattenSource (advance_till_first_frame_line c s (some carry) source).2.1)
           (advance_till_first_frame_line c s (some carry) source).2.2
         = some rest) ∧
    (find_line_frame c.inputs (carry ++ flattenSource source) = none →
       advance_till_first_frame_line c s (some carry) source = (s, [], none)) := by
  constructor
  · intro dt t rest h
    obtain ⟨src', rem, ha, hr⟩ := advance_till_some c s carry source dt t rest h
    rw [ha]
    exact ⟨rfl, by simp [hr]⟩
  · exact advance_till_none c s carry source

/-- Witness for C3: a carry whose head is a line event at time 7 makes the
scan lock on with `line_count = 1`; a carry holding only a photon over an
empty source exhausts with the state untouched. -/
theorem advance_till_first_frame_line_spec_witness :
    (advance_till_first_frame_line ctxU (stU 0 1) (some [⟨0, 0, 2, 7⟩]) []).1.line_count = 1 ∧
    advance_till_first_frame_line ctxU (stU 0 1) (some [⟨0, 0, 1, 7⟩]) [] = (stU 0 1, [], none) :=
  ⟨by
    rw [((advance_till_first_frame_line_spec ctxU (stU 0 1) [⟨0, 0, 2, 7⟩] []).1
          DataType.Line 7 [] (by decide)).1]
    decide,
   (advance_till_first_frame_line_spec ctxU (stU 0 1) [⟨0, 0, 1, 7⟩] []).2 (by decide)⟩

/-- Claim C4: across frame boundaries the pipeline neither duplicates nor
drops events.  The reference accounting splits the flat source sequence into
dispatched events, events consumed by `PhotonNewFrame` re-synchronization
and the leftover carry, reassembling the sequence exactly (first conjunct);
`populate_single_frame`'s carry-plus-unread-source is exactly that leftover
(second conjunct); and the event iterator consumes one event per `next`,
resuming at the first unread event rather than restarting (third and fourth
conjuncts). -/
theorem pipeline_event_conservation {σ : Type} (c : Ctx σ) (s : AppState σ)
    (carry : List Event) (source : List StreamItem) :
    (frameTrace c s (carry ++ flattenSource source)).1
        ++ (frameTrace c s (carry ++ flattenSource source)).2.1
        ++ ((frameTrace c s (carry ++ flattenSource source)).2.2).getD []
      = carry ++ flattenSource source ∧
    Option.map
        (fun rem => rem ++ flattenSource (populate_single_frame c s (some carry) source).2.1)
        (populate_single_frame c s (some carry) source).2.2
      = (frameTrace c s (carry ++ flattenSource source)).2.2 ∧
    (∀ (st : EventStream) (k : Nat),
       EventStreamIter.next ⟨st, k, st.num_rows, rfl⟩
         = if h : k < st.num_rows
           then some (st.get ⟨k, h⟩, ⟨st, k + 1, st.num_rows, rfl⟩)
           else none) ∧
    (∀ (st : EventStream) (k : Nat),
       iterTake (st.num_rows - k) ⟨st, k, st.num_rows, rfl⟩ = st.toList.drop k) := by
  refine ⟨frameTrace_conservation c _ s, ?_, fun st k => iter_next_step st k,
          fun st k => iterTake_eq_drop st _ k (le_refl _)⟩
  rw [frameTrace_carry]
  exact (populate_single_frame_corr c s carry source).2.1

/-- Counterexample for C5: with one batch holding rows_per_frame = 1 line
events at 0, 10, 20 and photons at 11, 21, already the first frame of
`start_acq_loop_for` leaves a different carry than the infinite loop
observed for one frame: the extra `advance_till_first_frame_line` after
`populate_single_frame` skips the photon at 11 and consumes the line at 20,
so the loops do not perform the same per-frame processing. -/
theorem start_acq_loop_for_ne_inf_loop :
    (start_acq_loop_for ctxU 1 5 (stU 0 1) [StreamItem.ok batchC]).1.2.2
      ≠ (start_inf_acq_loop ctxU 1 5 (stU 0 1) [StreamItem.ok batchC]).1.2.2 := by
  decide

/-- One step of `acq_loop_for` unrolls to the composite step
`populate_single_frame`-then-`advance_till_first_frame_line`, with the
render trace given by the cadence. -/
theorem acq_loop_for_iterate {σ : Type} (c : Ctx σ) (rolling_avg : Nat) :
    ∀ (steps fn : Nat) (x : AppState σ × List StreamItem × Option (List Event)),
      acq_loop_for c rolling_avg steps fn x.1 x.2.1 x.2.2
        = ((for_step c)^[steps] x, cadence rolling_avg fn steps) := by
  intro steps
  induction steps with
  | zero => intro fn x; simp [acq_loop_for, cadence]
  | succ n ih =>
    intro fn x
    simp only [acq_loop_for, cadence, Function.iterate_succ_apply]
    rw [show (for_step c)^[n] (for_step c x)
          = (acq_loop_for c rolling_avg n (fn + 1) (for_step c x).1 (for_step c x).2.1
              (for_step c x).2.2).1 by rw [ih (fn + 1) (for_step c x)]]
    simp [for_step, ih (fn + 1)]

/-- Claim C5 (amended): `start_acq_loop_for(steps, rolling_avg)` runs
exactly `steps` frames, each frame being `populate_single_frame` followed by
a further `advance_till_first_frame_line` on the carry — unlike the
infinite loop, which runs `populate_single_frame` alone per frame — and it
renders exactly at the frame numbers `1..steps` divisible by `rolling_avg`,
without the infinite loop's early exit on a `None` carry, serializer
snapshot, or frame-buffer clearing. -/
theorem acq_loop_for_amended {σ : Type} (c : Ctx σ) (steps rolling_avg : Nat)
    (s : AppState σ) (source : List StreamItem) :
    start_acq_loop_for c steps rolling_avg s source
      = ((for_step c)^[steps] (advance_till_first_frame_line c s none source),
         cadence rolling_avg 1 steps) := by
  unfold start_acq_loop_for
  exact acq_loop_for_iterate c rolling_avg steps 1 (advance_till_first_frame_line c s none source)
